import Mathlib

/-!
Verification of the WorldClim extractor core (src/app.py).

The embedding models the single extraction routine `extract_from_zip` and the
archive-URL construction of the surrounding glue.  Tables are ordered lists of
named columns over rational cell values; a raster is its extent, its stored
cells, its boundless-read fill value and its (abstract) affine pixel lookup
`index`; the remote environment is a map from GDAL virtual-filesystem paths to
the rasters they open, with `none` standing for the exception `rasterio.open`
raises on an unresolvable path.
-/

/-- Cell values of rasters and table columns, modelled as rationals. -/
abbrev Val := ℚ

/-- Model of a pandas DataFrame: an ordered list of labelled columns. -/
structure DataFrame where
  cols : List (String × List Val)

/-- Column lookup `df[name]`: the first column carrying the label. -/
def DataFrame.lookup (df : DataFrame) (name : String) : Option (List Val) :=
  (df.cols.find? (fun p => p.1 == name)).map Prod.snd

/-- Column labels, in order. -/
def DataFrame.names (df : DataFrame) : List String :=
  df.cols.map Prod.fst

/-- Model of pandas column assignment `df[name] = vals`: replace the values of
an existing column in place, otherwise append a new column at the end. -/
def DataFrame.setCol (df : DataFrame) (name : String) (vals : List Val) : DataFrame :=
  if df.cols.any (fun p => p.1 == name) then
    ⟨df.cols.map (fun p => if p.1 == name then (name, vals) else p)⟩
  else
    ⟨df.cols ++ [(name, vals)]⟩

/-- Model of `df.copy()` (app.py line 14).  In the pure embedding a deep copy
is the value itself; every subsequent assignment builds a new value, so the
caller's original frame is never affected. -/
def DataFrame.copy (df : DataFrame) : DataFrame := df

/-- Model of a single-band raster opened by rasterio: extent, stored cells,
the fill value substituted by boundless reads outside the extent, and the
affine georeferencing lookup `src.index(lon, lat) = (row, col)`, kept abstract
because each raster carries its own transform. -/
structure Raster where
  height : ℕ
  width : ℕ
  data : ℤ → ℤ → Val
  fill : Val
  index : ℚ → ℚ → ℤ × ℤ

/-- Cell value delivered by a boundless read at (r, c): the stored value inside
the extent, the fill value outside it. -/
def Raster.cell (src : Raster) (r c : ℤ) : Val :=
  if 0 ≤ r ∧ r < src.height ∧ 0 ≤ c ∧ c < src.width then src.data r c else src.fill

/-- Model of `rasterio.windows.Window(col_off, row_off, width, height)`. -/
structure Window where
  col_off : ℤ
  row_off : ℤ
  width : ℤ
  height : ℤ

/-- Model of `src.read(1, window=win, boundless=True)` (app.py line 47): the
height-by-width grid of boundless cell values starting at the window offsets. -/
def Raster.read (src : Raster) (w : Window) : List (List Val) :=
  (List.range w.height.toNat).map (fun (dr : ℕ) =>
    (List.range w.width.toNat).map (fun (dc : ℕ) =>
      src.cell (w.row_off + (dr : ℤ)) (w.col_off + (dc : ℤ))))

/-- Model of `arr.mean()` on the read grid: the sum of all cells divided by
their number. -/
def gridMean (g : List (List Val)) : Val :=
  g.flatten.sum / (g.flatten.length : Val)

/-- Model of `src.sample(coords)` (app.py line 50, first band): rasterio's
sample generator performs a boundless single-pixel read at the cell
`dataset.index(x, y)` for each coordinate. -/
def Raster.sample (src : Raster) (coords : List (ℚ × ℚ)) : List Val :=
  coords.map (fun c => src.cell (src.index c.1 c.2).1 (src.index c.1 c.2).2)

/-- Python `str.lower()` restricted to its ASCII action, applied characterwise. -/
def lowerStr (s : String) : String := ⟨s.data.map Char.toLower⟩

/-- Layer count (app.py line 23): 19 bioclimatic layers when the variable
lowercases to "bio", otherwise 12 monthly layers. -/
def maxLayer (var : String) : ℕ :=
  if lowerStr var = "bio" then 19 else 12

/-- Layer index string (app.py lines 25-29): unpadded decimal for bio,
zero-padded to two digits otherwise, following Python `f"{i:02d}"`. -/
def istrOf (var : String) (i : ℕ) : String :=
  if lowerStr var = "bio" then toString i
  else if i < 10 then "0" ++ toString i else toString i

/-- Inner archive member name `wc2.1_{res}_{var}_{istr}.tif` (app.py line 30). -/
def insideName (var res s : String) : String :=
  "wc2.1_" ++ res ++ "_" ++ var ++ "_" ++ s ++ ".tif"

/-- GDAL virtual path `/vsizip/vsicurl/{zip_url}/{inside}` (app.py line 32). -/
def vsiPath (zip_url inside : String) : String :=
  "/vsizip/vsicurl/" ++ zip_url ++ "/" ++ inside

/-- Virtual path opened for layer i. -/
def layerPath (var res zip_url : String) (i : ℕ) : String :=
  vsiPath zip_url (insideName var res (istrOf var i))

/-- Output column name `{var}_{res}_{istr}` (app.py line 51). -/
def colName (var res s : String) : String :=
  var ++ "_" ++ res ++ "_" ++ s

/-- Column name generated for layer i. -/
def gname (var res : String) (i : ℕ) : String :=
  colName var res (istrOf var i)

/-- Layer indices 1..max_layer visited by the loop (app.py line 24). -/
def layerIdxs (var : String) : List ℕ :=
  (List.range (maxLayer var)).map (· + 1)

/-- Index strings produced across the whole loop. -/
def indexStrings (var : String) : List String :=
  (layerIdxs var).map (istrOf var)

/-- Archive URL `{base_url}/wc2.1_{res}_{var}.zip` built by the caller
(app.py lines 136-137). -/
def zip_url (base_url res var : String) : String :=
  base_url ++ "/wc2.1_" ++ res ++ "_" ++ var ++ ".zip"

/-- Per-coordinate focal-mean values for window size n (app.py lines 38-48):
locate the pixel of each coordinate, build the window whose top-left corner is
(col - n // 2, row - n // 2) with Python floor division, read it boundlessly
and take the mean. -/
def windowedVals (src : Raster) (n : ℤ) (coords : List (ℚ × ℚ)) : List Val :=
  coords.map (fun c =>
    let rc := src.index c.1 c.2
    gridMean (src.read ⟨rc.2 - Int.fdiv n 2, rc.1 - Int.fdiv n 2, n, n⟩))

/-- Per-layer values over all coordinates (app.py lines 37-50): the windowed
branch runs when `pixel_window and pixel_window > 1` is truthy in Python, the
exact-sample branch otherwise (None, falsy 0, or any value at most 1). -/
def layerVals (src : Raster) (pixel_window : Option ℤ) (coords : List (ℚ × ℚ)) : List Val :=
  match pixel_window with
  | none => src.sample coords
  | some n =>
      if n = 0 then src.sample coords
      else if 1 < n then windowedVals src n coords
      else src.sample coords

/-- Layer loop of extract_from_zip over the remaining indices (app.py 24-51):
open layer i at its virtual path (an unresolvable path raises inside
`rasterio.open`, modelled as an error naming the path), compute the
per-coordinate values and assign them to the generated column, then continue. -/
def extractLayers (env : String → Option Raster) (var res : String)
    (pixel_window : Option ℤ) (zip_url : String) (coords : List (ℚ × ℚ)) :
    List ℕ → DataFrame → Except String DataFrame
  | [], result => Except.ok result
  | i :: rest, result =>
      match env (layerPath var res zip_url i) with
      | none => Except.error ("rasterio.open failed: " ++ layerPath var res zip_url i)
      | some src =>
          extractLayers env var res pixel_window zip_url coords rest
            (result.setCol (gname var res i) (layerVals src pixel_window coords))

/-- Model of `extract_from_zip` (app.py lines 7-54).  The environment maps
virtual paths to the rasters they open; a missing coordinate column raises
KeyError in pandas, modelled as an error result. -/
def extract_from_zip (env : String → Option Raster) (df : DataFrame)
    (lon_col lat_col var res : String) (pixel_window : Option ℤ)
    (zip_url : String) : Except String DataFrame :=
  match df.lookup lon_col, df.lookup lat_col with
  | some lons, some lats =>
      extractLayers env var res pixel_window zip_url (lons.zip lats)
        (layerIdxs var) df.copy
  | _, _ => Except.error "KeyError"

/-- Column assignments performed by a fully successful run, with envT giving
the raster opened behind layer i. -/
def extractLayersPure (envT : ℕ → Raster) (var res : String)
    (pixel_window : Option ℤ) (coords : List (ℚ × ℚ)) :
    List ℕ → DataFrame → DataFrame
  | [], result => result
  | i :: rest, result =>
      extractLayersPure envT var res pixel_window coords rest
        (result.setCol (gname var res i) (layerVals (envT i) pixel_window coords))

/-- Concrete raster used to exercise the theorems on explicit inputs: a 2-by-2
raster whose stored cell at (r, c) is r + 2c, whose boundless fill value is
100, and whose transform sends every coordinate to the pixel (0, 0). -/
def R0 : Raster where
  height := 2
  width := 2
  data := fun r c => (r : Val) + 2 * (c : Val)
  fill := 100
  index := fun _ _ => (0, 0)

/-- Remote environment in which every virtual path opens R0. -/
def env0 : String → Option Raster := fun _ => some R0

/-- Remote environment in which no virtual path can be opened. -/
def envNone : String → Option Raster := fun _ => none

/-- One-row coordinate table. -/
def df0 : DataFrame := ⟨[("lon", [0]), ("lat", [0])]⟩

/-- One-row coordinate table that already carries the generated column name
x_r_01. -/
def df1 : DataFrame := ⟨[("lon", [0]), ("lat", [0]), ("x_r_01", [5])]⟩

/-! Helper lemmas about the generated names and index strings. -/

lemma string_append_data (s t : String) : (s ++ t).data = s.data ++ t.data :=
  String.data_append s t

lemma colName_inj {var res : String} : Function.Injective (colName var res) := by
  intro a b h
  unfold colName at h
  have hd := congrArg String.data h
  simp only [String.data_append, List.append_assoc] at hd
  have h1 := List.append_cancel_left hd
  have h2 := List.append_cancel_left h1
  have h3 := List.append_cancel_left h2
  have h4 := List.append_cancel_left h3
  cases a; cases b; cases h4; rfl

lemma indexStrings_bio {var : String} (h : lowerStr var = "bio") :
    indexStrings var = ["1", "2", "3", "4", "5", "6", "7", "8", "9", "10",
      "11", "12", "13", "14", "15", "16", "17", "18", "19"] := by
  have h19 : maxLayer var = 19 := by simp [maxLayer, h]
  have hfun : (istrOf var ∘ fun x => x + 1) = fun x => toString (x + 1) := by
    funext x; simp [istrOf, h]
  unfold indexStrings layerIdxs
  rw [h19, List.map_map, hfun]
  decide

lemma indexStrings_notbio {var : String} (h : ¬ lowerStr var = "bio") :
    indexStrings var = ["01", "02", "03", "04", "05", "06", "07", "08", "09",
      "10", "11", "12"] := by
  have h12 : maxLayer var = 12 := by simp [maxLayer, h]
  have hfun : (istrOf var ∘ fun x => x + 1) =
      fun x => if x + 1 < 10 then "0" ++ toString (x + 1) else toString (x + 1) := by
    funext x; simp [istrOf, h]
  unfold indexStrings layerIdxs
  rw [h12, List.map_map, hfun]
  decide

lemma indexStrings_nodup (var : String) : (indexStrings var).Nodup := by
  by_cases h : lowerStr var = "bio"
  · rw [indexStrings_bio h]; decide
  · rw [indexStrings_notbio h]; decide

lemma gnames_eq (var res : String) :
    (layerIdxs var).map (gname var res) = (indexStrings var).map (colName var res) := by
  rw [indexStrings, List.map_map]; rfl

lemma gnames_nodup (var res : String) :
    ((layerIdxs var).map (gname var res)).Nodup := by
  rw [gnames_eq]
  exact (indexStrings_nodup var).map colName_inj

lemma length_layerIdxs (var : String) : (layerIdxs var).length = maxLayer var := by
  simp [layerIdxs]

/-! Helper lemmas about DataFrame column assignment. -/

lemma any_eq_mem_names (df : DataFrame) (n : String) :
    (df.cols.any fun p => p.1 == n) = true ↔ n ∈ df.names := by
  simp [DataFrame.names, List.any_eq_true, List.mem_map]

lemma setCol_names_mem {df : DataFrame} {n : String} {v : List Val}
    (h : n ∈ df.names) : (df.setCol n v).names = df.names := by
  have hany := (any_eq_mem_names df n).mpr h
  simp only [DataFrame.setCol, hany, if_true, DataFrame.names, List.map_map]
  refine List.map_congr_left ?_
  intro p _
  by_cases hc : p.1 = n
  · simp [hc]
  · simp [hc]

lemma setCol_cols_not_mem {df : DataFrame} {n : String} {v : List Val}
    (h : n ∉ df.names) : (df.setCol n v).cols = df.cols ++ [(n, v)] := by
  have hany : (df.cols.any fun p => p.1 == n) = false := by
    cases hb : (df.cols.any fun p => p.1 == n)
    · rfl
    · exact absurd ((any_eq_mem_names df n).mp hb) h
  simp only [DataFrame.setCol, hany, Bool.false_eq_true, if_false]

lemma setCol_names_not_mem {df : DataFrame} {n : String} {v : List Val}
    (h : n ∉ df.names) : (df.setCol n v).names = df.names ++ [n] := by
  unfold DataFrame.names
  rw [setCol_cols_not_mem h, List.map_append]
  rfl

lemma find?_assign_self {n : String} {v : List Val} :
    ∀ {l : List (String × List Val)}, (∃ p ∈ l, p.1 = n) →
      (l.map fun p => if p.1 == n then (n, v) else p).find? (fun p => p.1 == n)
        = some (n, v) := by
  intro l
  induction l with
  | nil => rintro ⟨p, hp, _⟩; cases hp
  | cons a t ih =>
    intro hl
    by_cases hc : a.1 = n
    · rw [List.map_cons, if_pos (by simp [hc])]
      exact List.find?_cons_of_pos _ (by simp)
    · rw [List.map_cons, if_neg (by simp [hc])]
      rw [List.find?_cons_of_neg _ (by simp [hc])]
      rcases hl with ⟨p, hp, he⟩
      rcases List.mem_cons.mp hp with rfl | hpt
      · exact absurd he hc
      · exact ih ⟨p, hpt, he⟩

lemma find?_assign_other {n c : String} {v : List Val} (hc : c ≠ n) :
    ∀ l : List (String × List Val),
      (l.map fun p => if p.1 == n then (n, v) else p).find? (fun p => p.1 == c)
        = l.find? (fun p => p.1 == c)
  | [] => rfl
  | a :: t => by
    by_cases ha : a.1 = n
    · rw [List.map_cons, if_pos (by simp [ha])]
      rw [List.find?_cons_of_neg _ (by simp [Ne.symm hc])]
      rw [List.find?_cons_of_neg _ (by simp [ha, Ne.symm hc])]
      exact find?_assign_other hc t
    · rw [List.map_cons, if_neg (by simp [ha])]
      by_cases hac : a.1 = c
      · rw [List.find?_cons_of_pos _ (by simp [hac]),
          List.find?_cons_of_pos _ (by simp [hac])]
      · rw [List.find?_cons_of_neg _ (by simp [hac]),
          List.find?_cons_of_neg _ (by simp [hac])]
        exact find?_assign_other hc t

lemma setCol_lookup_self (df : DataFrame) (n : String) (v : List Val) :
    (df.setCol n v).lookup n = some v := by
  unfold DataFrame.setCol DataFrame.lookup
  by_cases hm : (df.cols.any fun p => p.1 == n) = true
  · rw [if_pos hm]
    have hex : ∃ p ∈ df.cols, p.1 = n := by
      rcases List.any_eq_true.mp hm with ⟨p, hp, hb⟩
      exact ⟨p, hp, by simpa using hb⟩
    show ((df.cols.map _).find? _).map Prod.snd = _
    rw [find?_assign_self hex]
    rfl
  · rw [if_neg hm]
    have hnone : df.cols.find? (fun p => p.1 == n) = none := by
      rw [List.find?_eq_none]
      intro p hp hb
      exact hm (List.any_eq_true.mpr ⟨p, hp, hb⟩)
    show ((df.cols ++ [(n, v)]).find? _).map Prod.snd = _
    rw [List.find?_append, hnone]
    simp

lemma setCol_lookup_other {df : DataFrame} {n c : String} {v : List Val}
    (hc : c ≠ n) : (df.setCol n v).lookup c = df.lookup c := by
  unfold DataFrame.setCol DataFrame.lookup
  by_cases hm : (df.cols.any fun p => p.1 == n) = true
  · rw [if_pos hm]
    show ((df.cols.map _).find? _).map Prod.snd = _
    rw [find?_assign_other hc]
  · rw [if_neg hm]
    show ((df.cols ++ [(n, v)]).find? _).map Prod.snd = _
    rw [List.find?_append]
    have h1 : List.find? (fun p => p.1 == c) [(n, v)] = none := by
      simp [Ne.symm hc]
    rw [h1]
    cases df.cols.find? (fun p => p.1 == c) <;> rfl

lemma setCol_length {df : DataFrame} {m : ℕ}
    (hall : ∀ p ∈ df.cols, p.2.length = m) {n : String} {v : List Val}
    (hv : v.length = m) : ∀ p ∈ (df.setCol n v).cols, p.2.length = m := by
  unfold DataFrame.setCol
  by_cases hm : (df.cols.any fun p => p.1 == n) = true
  · rw [if_pos hm]
    intro p hp
    rcases List.mem_map.mp hp with ⟨q, hq, rfl⟩
    by_cases hqn : q.1 = n
    · simp [hqn, hv]
    · simp only [hqn, if_neg (by simp [hqn] : ¬((q.1 == n) = true))]
      exact hall q hq
  · rw [if_neg hm]
    intro p hp
    rcases List.mem_append.mp hp with h | h
    · exact hall p h
    · rcases List.mem_singleton.mp h with rfl
      exact hv

/-! Helper lemmas about the layer loop. -/

lemma extractLayers_run (env : String → Option Raster) (envT : ℕ → Raster)
    (var res : String) (pw : Option ℤ) (z : String) (coords : List (ℚ × ℚ)) :
    ∀ (idxs : List ℕ) (r : DataFrame),
      (∀ i ∈ idxs, env (layerPath var res z i) = some (envT i)) →
      extractLayers env var res pw z coords idxs r
        = Except.ok (extractLayersPure envT var res pw coords idxs r)
  | [], _, _ => rfl
  | i :: rest, r, henv => by
    have hi := henv i (List.mem_cons_self i rest)
    simp only [extractLayers, extractLayersPure, hi]
    exact extractLayers_run env envT var res pw z coords rest _
      (fun j hj => henv j (List.mem_cons_of_mem i hj))

lemma extractLayers_err (env : String → Option Raster)
    (var res : String) (pw : Option ℤ) (z : String) (coords : List (ℚ × ℚ)) :
    ∀ (idxs : List ℕ) (r : DataFrame),
      (∃ i ∈ idxs, env (layerPath var res z i) = none) →
      ∃ msg, extractLayers env var res pw z coords idxs r = Except.error msg
  | [], _, h => absurd h (by simp)
  | i :: rest, r, h => by
    cases hc : env (layerPath var res z i) with
    | none =>
      exact ⟨"rasterio.open failed: " ++ layerPath var res z i,
        by simp only [extractLayers, hc]⟩
    | some src =>
      have hex : ∃ j ∈ rest, env (layerPath var res z j) = none := by
        rcases h with ⟨j, hj, hnone⟩
        rcases List.mem_cons.mp hj with rfl | hjr
        · rw [hc] at hnone; cases hnone
        · exact ⟨j, hjr, hnone⟩
      rcases extractLayers_err env var res pw z coords rest
        (r.setCol (gname var res i) (layerVals src pw coords)) hex with ⟨msg, hmsg⟩
      exact ⟨msg, by simp only [extractLayers, hc]; exact hmsg⟩

lemma pure_names (envT : ℕ → Raster) (var res : String) (pw : Option ℤ)
    (coords : List (ℚ × ℚ)) :
    ∀ (idxs : List ℕ) (r : DataFrame), (idxs.map (gname var res)).Nodup →
      (extractLayersPure envT var res pw coords idxs r).names
        = r.names ++ (idxs.map (gname var res)).filter (fun c => decide (c ∉ r.names))
  | [], r, _ => by simp [extractLayersPure]
  | i :: rest, r, hnd => by
    rw [List.map_cons] at hnd
    have hcons := List.nodup_cons.mp hnd
    have hnd' : (rest.map (gname var res)).Nodup := hcons.2
    have hni : gname var res i ∉ rest.map (gname var res) := hcons.1
    by_cases hm : gname var res i ∈ r.names
    · have hnames := @setCol_names_mem r (gname var res i)
        (layerVals (envT i) pw coords) hm
      simp only [extractLayersPure]
      rw [pure_names envT var res pw coords rest _ hnd']
      simp only [hnames]
      congr 1
      rw [List.map_cons, List.filter_cons, if_neg (by simp [hm])]
    · have hnames := @setCol_names_not_mem r (gname var res i)
        (layerVals (envT i) pw coords) hm
      simp only [extractLayersPure]
      rw [pure_names envT var res pw coords rest _ hnd']
      simp only [hnames]
      rw [List.map_cons, List.filter_cons, if_pos (by simp [hm]), List.append_assoc]
      congr 1
      show gname var res i :: _ = gname var res i :: _
      congr 1
      apply List.filter_congr
      intro c hcm
      have hcg : c ≠ gname var res i := fun he => hni (he ▸ hcm)
      exact decide_eq_decide.mpr (by simp [List.mem_append, hcg])

lemma pure_lookup_other (envT : ℕ → Raster) (var res : String) (pw : Option ℤ)
    (coords : List (ℚ × ℚ)) :
    ∀ (idxs : List ℕ) (r : DataFrame) {c : String},
      c ∉ idxs.map (gname var res) →
      (extractLayersPure envT var res pw coords idxs r).lookup c = r.lookup c
  | [], _, _, _ => rfl
  | i :: rest, r, c, hc => by
    have h1 : c ≠ gname var res i := by
      intro he; exact hc (by simp [he])
    have h2 : c ∉ rest.map (gname var res) := by
      intro hm; exact hc (by simp [hm])
    simp only [extractLayersPure]
    rw [pure_lookup_other envT var res pw coords rest _ h2, setCol_lookup_other h1]

lemma pure_lookup_gen (envT : ℕ → Raster) (var res : String) (pw : Option ℤ)
    (coords : List (ℚ × ℚ)) :
    ∀ (idxs : List ℕ) (r : DataFrame) {i : ℕ},
      (idxs.map (gname var res)).Nodup → i ∈ idxs →
      (extractLayersPure envT var res pw coords idxs r).lookup (gname var res i)
        = some (layerVals (envT i) pw coords)
  | [], _, i, _, hi => absurd hi (by simp)
  | j :: rest, r, i, hnd, hi => by
    rw [List.map_cons] at hnd
    have hcons := List.nodup_cons.mp hnd
    rcases List.mem_cons.mp hi with rfl | hir
    · simp only [extractLayersPure]
      rw [pure_lookup_other envT var res pw coords rest _ hcons.1,
        setCol_lookup_self]
    · simp only [extractLayersPure]
      exact pure_lookup_gen envT var res pw coords rest _ hcons.2 hir

lemma layerVals_length (src : Raster) (pw : Option ℤ) (coords : List (ℚ × ℚ)) :
    (layerVals src pw coords).length = coords.length := by
  unfold layerVals
  cases pw with
  | none => simp [Raster.sample]
  | some n =>
    by_cases h0 : n = 0
    · simp [h0, Raster.sample]
    · by_cases h1 : 1 < n
      · simp [h0, h1, windowedVals]
      · simp [h0, h1, Raster.sample]

lemma pure_length (envT : ℕ → Raster) (var res : String) (pw : Option ℤ)
    (coords : List (ℚ × ℚ)) (m : ℕ) (hc : coords.length = m) :
    ∀ (idxs : List ℕ) (r : DataFrame), (∀ p ∈ r.cols, p.2.length = m) →
      ∀ p ∈ (extractLayersPure envT var res pw coords idxs r).cols, p.2.length = m
  | [], _, hall => hall
  | i :: rest, r, hall => by
    simp only [extractLayersPure]
    exact pure_length envT var res pw coords m hc rest _
      (setCol_length hall (by rw [layerVals_length, hc]))

lemma extract_ok {env : String → Option Raster} {envT : ℕ → Raster}
    {df : DataFrame} {lon_col lat_col var res : String} {pw : Option ℤ}
    {z : String} {lons lats : List Val}
    (hlon : df.lookup lon_col = some lons) (hlat : df.lookup lat_col = some lats)
    (henv : ∀ i ∈ layerIdxs var, env (layerPath var res z i) = some (envT i)) :
    extract_from_zip env df lon_col lat_col var res pw z
      = Except.ok (extractLayersPure envT var res pw (lons.zip lats)
          (layerIdxs var) df) := by
  unfold extract_from_zip
  rw [hlon, hlat]
  exact extractLayers_run env envT var res pw z (lons.zip lats) (layerIdxs var)
    df.copy henv

/-! Helper lemmas about branch selection, means, and filters. -/

lemma layerVals_none (src : Raster) (coords : List (ℚ × ℚ)) :
    layerVals src none coords = src.sample coords := rfl

lemma layerVals_le_one {k : ℤ} (hk : k ≤ 1) (src : Raster)
    (coords : List (ℚ × ℚ)) :
    layerVals src (some k) coords = src.sample coords := by
  unfold layerVals
  by_cases h0 : k = 0
  · simp [h0]
  · simp [h0, not_lt.mpr hk]

lemma layerVals_gt_one {k : ℤ} (hk : 1 < k) (src : Raster)
    (coords : List (ℚ × ℚ)) :
    layerVals src (some k) coords = windowedVals src k coords := by
  unfold layerVals
  have h0 : ¬ k = 0 := by omega
  simp [h0, hk]

lemma sum_range_list (n : ℕ) (f : ℕ → Val) :
    ((List.range n).map f).sum = ∑ i ∈ Finset.range n, f i := by
  induction n with
  | zero => simp
  | succ k ih =>
    rw [List.range_succ, Finset.sum_range_succ, List.map_append, List.sum_append]
    simp [ih]

lemma sum_map_const_nat (n m : ℕ) : ((List.range n).map (fun _ => m)).sum = n * m := by
  induction n with
  | zero => simp
  | succ k ih =>
    rw [List.range_succ, List.map_append, List.sum_append]
    simp [ih, Nat.succ_mul]

lemma gridMean_read (src : Raster) (w : Window) :
    gridMean (src.read w) =
      (∑ dr ∈ Finset.range w.height.toNat, ∑ dc ∈ Finset.range w.width.toNat,
        src.cell (w.row_off + (dr : ℤ)) (w.col_off + (dc : ℤ)))
        / ((w.height.toNat : Val) * (w.width.toNat : Val)) := by
  unfold gridMean Raster.read
  rw [List.sum_flatten, List.map_map, List.length_flatten, List.map_map]
  have h1 : (List.sum ∘ fun (dr : ℕ) => (List.range w.width.toNat).map (fun (dc : ℕ) =>
      src.cell (w.row_off + (dr : ℤ)) (w.col_off + (dc : ℤ)))) = fun (dr : ℕ) =>
      ∑ dc ∈ Finset.range w.width.toNat,
        src.cell (w.row_off + (dr : ℤ)) (w.col_off + (dc : ℤ)) := by
    funext dr
    exact sum_range_list _ _
  have h2 : (List.length ∘ fun (dr : ℕ) => (List.range w.width.toNat).map (fun (dc : ℕ) =>
      src.cell (w.row_off + (dr : ℤ)) (w.col_off + (dc : ℤ)))) = fun _ => w.width.toNat := by
    funext dr
    simp
  rw [h1, h2, sum_range_list, sum_map_const_nat]
  push_cast
  rfl

lemma extractLayers_pw_congr (env : String → Option Raster) (var res z : String)
    (coords : List (ℚ × ℚ)) {pw pw' : Option ℤ}
    (hvals : ∀ src, layerVals src pw coords = layerVals src pw' coords) :
    ∀ (idxs : List ℕ) (r : DataFrame),
      extractLayers env var res pw z coords idxs r
        = extractLayers env var res pw' z coords idxs r
  | [], _ => rfl
  | i :: rest, r => by
    cases hc : env (layerPath var res z i) with
    | none => simp only [extractLayers, hc]
    | some src =>
      simp only [extractLayers, hc, hvals src]
      exact extractLayers_pw_congr env var res z coords hvals rest _

lemma length_filter_lt_of_mem {α : Type} (p : α → Bool) :
    ∀ {l : List α} {a : α}, a ∈ l → p a = false →
      (l.filter p).length < l.length := by
  intro l
  induction l with
  | nil => intro a h; cases h
  | cons b t ih =>
    intro a hm hp
    rcases List.mem_cons.mp hm with rfl | ht
    · rw [List.filter_cons, if_neg (by simp [hp])]
      exact Nat.lt_succ_of_le (List.length_filter_le p t)
    · rw [List.filter_cons]
      by_cases hb : p b = true
      · rw [if_pos hb]
        simp only [List.length_cons]
        exact Nat.succ_lt_succ (ih ht hp)
      · rw [if_neg hb]
        exact Nat.lt_succ_of_lt (ih ht hp)

/-! Claim theorems. -/

/-- C1: whenever both coordinate columns resolve, every layer opens, and no
generated name is already taken, extract_from_zip appends exactly the
generated columns, named by the grammar {var}_{res}_{idx} and appended in
increasing layer order; the index strings are the unpadded "1".."19" when the
variable case-insensitively equals "bio" and the zero-padded "01".."12" for
any other variable. -/
theorem extract_appends_layer_columns
    (env : String → Option Raster) (envT : ℕ → Raster) (df : DataFrame)
    (lon_col lat_col var res z : String) (pw : Option ℤ) (lons lats : List Val)
    (hlon : df.lookup lon_col = some lons)
    (hlat : df.lookup lat_col = some lats)
    (henv : ∀ i ∈ layerIdxs var, env (layerPath var res z i) = some (envT i))
    (hfresh : ∀ i ∈ layerIdxs var, gname var res i ∉ df.names) :
    ∃ out, extract_from_zip env df lon_col lat_col var res pw z = Except.ok out ∧
      out.names = df.names
        ++ (indexStrings var).map (fun s => var ++ "_" ++ res ++ "_" ++ s) ∧
      (lowerStr var = "bio" → indexStrings var
        = ["1", "2", "3", "4", "5", "6", "7", "8", "9", "10", "11", "12",
           "13", "14", "15", "16", "17", "18", "19"]) ∧
      (lowerStr var ≠ "bio" → indexStrings var
        = ["01", "02", "03", "04", "05", "06", "07", "08", "09", "10", "11",
           "12"]) := by
  refine ⟨_, extract_ok hlon hlat henv, ?_,
    fun h => indexStrings_bio h, fun h => indexStrings_notbio h⟩
  rw [pure_names envT var res pw (lons.zip lats) (layerIdxs var) df
    (gnames_nodup var res)]
  have hall : ∀ a ∈ (layerIdxs var).map (gname var res),
      (fun c => decide (c ∉ df.names)) a = true := by
    intro a ha
    rcases List.mem_map.mp ha with ⟨i, hi, rfl⟩
    simpa using hfresh i hi
  rw [List.filter_eq_self.mpr hall, gnames_eq]
  rfl

/-- Witness: the C1 theorem applied to a concrete one-row table, the bio
variable, and an environment in which every path opens the test raster. -/
theorem extract_appends_layer_columns_witness :
    ∃ out, extract_from_zip env0 df0 "lon" "lat" "bio" "10m" none "u"
        = Except.ok out ∧
      out.names = df0.names
        ++ (indexStrings "bio").map (fun s => "bio" ++ "_" ++ "10m" ++ "_" ++ s) ∧
      (lowerStr "bio" = "bio" → indexStrings "bio"
        = ["1", "2", "3", "4", "5", "6", "7", "8", "9", "10", "11", "12",
           "13", "14", "15", "16", "17", "18", "19"]) ∧
      (lowerStr "bio" ≠ "bio" → indexStrings "bio"
        = ["01", "02", "03", "04", "05", "06", "07", "08", "09", "10", "11",
           "12"]) :=
  extract_appends_layer_columns env0 (fun _ => R0) df0 "lon" "lat" "bio" "10m"
    "u" none [0] [0] rfl rfl (fun _ _ => rfl) (by decide)

/-- C4: on a fully successful run over a well-formed table, every output
column has the input row count (rows are neither dropped nor reordered: each
untouched column keeps its exact value list), and the routine works on a copy
(the identity in this pure embedding), so the caller's table value is
unchanged. -/
theorem extract_preserves_rows_and_input_columns
    (env : String → Option Raster) (envT : ℕ → Raster) (df : DataFrame)
    (lon_col lat_col var res z : String) (pw : Option ℤ) (lons lats : List Val)
    (n : ℕ)
    (hlon : df.lookup lon_col = some lons)
    (hlat : df.lookup lat_col = some lats)
    (henv : ∀ i ∈ layerIdxs var, env (layerPath var res z i) = some (envT i))
    (hlons : lons.length = n) (hlats : lats.length = n)
    (hall : ∀ p ∈ df.cols, p.2.length = n) :
    ∃ out, extract_from_zip env df lon_col lat_col var res pw z = Except.ok out ∧
      (∀ p ∈ out.cols, p.2.length = n) ∧
      (∀ c, c ∉ (layerIdxs var).map (gname var res) →
        out.lookup c = df.lookup c) ∧
      df.copy = df := by
  refine ⟨_, extract_ok hlon hlat henv, ?_, ?_, rfl⟩
  · exact pure_length envT var res pw (lons.zip lats) n
      (by rw [List.length_zip, hlons, hlats, Nat.min_self]) (layerIdxs var) df hall
  · intro c hc
    exact pure_lookup_other envT var res pw (lons.zip lats) (layerIdxs var) df hc

/-- Witness: the C4 theorem applied to a concrete one-row table. -/
theorem extract_preserves_rows_and_input_columns_witness :
    ∃ out, extract_from_zip env0 df0 "lon" "lat" "tmin" "10m" none "u"
        = Except.ok out ∧
      (∀ p ∈ out.cols, p.2.length = 1) ∧
      (∀ c, c ∉ (layerIdxs "tmin").map (gname "tmin" "10m") →
        out.lookup c = df0.lookup c) ∧
      df0.copy = df0 :=
  extract_preserves_rows_and_input_columns env0 (fun _ => R0) df0 "lon" "lat"
    "tmin" "10m" "u" none [0] [0] 1 rfl rfl (fun _ _ => rfl) rfl rfl (by decide)

/-- C10: when the input table already carries a generated column name, the
extractor overwrites that column in the returned copy (the run still
succeeds, the label is not duplicated), and the number of genuinely new
columns is strictly smaller than max_layer.  The caller's own table value is
untouched because the routine only assigns into the copy. -/
theorem extract_overwrites_colliding_column
    (env : String → Option Raster) (envT : ℕ → Raster) (df : DataFrame)
    (lon_col lat_col var res z : String) (pw : Option ℤ) (lons lats : List Val)
    (i : ℕ)
    (hlon : df.lookup lon_col = some lons)
    (hlat : df.lookup lat_col = some lats)
    (henv : ∀ j ∈ layerIdxs var, env (layerPath var res z j) = some (envT j))
    (hi : i ∈ layerIdxs var)
    (hmem : gname var res i ∈ df.names) :
    ∃ out, extract_from_zip env df lon_col lat_col var res pw z = Except.ok out ∧
      out.lookup (gname var res i)
        = some (layerVals (envT i) pw (lons.zip lats)) ∧
      out.names = df.names ++ ((layerIdxs var).map (gname var res)).filter
        (fun c => decide (c ∉ df.names)) ∧
      out.names.length - df.names.length < maxLayer var := by
  refine ⟨_, extract_ok hlon hlat henv, ?_, ?_, ?_⟩
  · exact pure_lookup_gen envT var res pw (lons.zip lats) (layerIdxs var) df
      (gnames_nodup var res) hi
  · exact pure_names envT var res pw (lons.zip lats) (layerIdxs var) df
      (gnames_nodup var res)
  · rw [pure_names envT var res pw (lons.zip lats) (layerIdxs var) df
      (gnames_nodup var res), List.length_append]
    have hmm : gname var res i ∈ (layerIdxs var).map (gname var res) :=
      List.mem_map_of_mem _ hi
    have hlt := length_filter_lt_of_mem (fun c => decide (c ∉ df.names)) hmm
      (by simp [hmem])
    have hml : ((layerIdxs var).map (gname var res)).length = maxLayer var := by
      rw [List.length_map, length_layerIdxs]
    omega

/-- Witness: the C10 theorem applied to a table that already owns the
generated column name x_r_01. -/
theorem extract_overwrites_colliding_column_witness :
    ∃ out, extract_from_zip env0 df1 "lon" "lat" "x" "r" none "u"
        = Except.ok out ∧
      out.lookup (gname "x" "r" 1)
        = some (layerVals R0 none ([(0 : Val)].zip [(0 : Val)])) ∧
      out.names = df1.names ++ ((layerIdxs "x").map (gname "x" "r")).filter
        (fun c => decide (c ∉ df1.names)) ∧
      out.names.length - df1.names.length < maxLayer "x" :=
  extract_overwrites_colliding_column env0 (fun _ => R0) df1 "lon" "lat" "x"
    "r" "u" none [0] [0] 1 rfl rfl (fun _ _ => rfl) (by decide) (by decide)

/-- C2: with window size N greater than 1, the value extracted for a
coordinate is the arithmetic mean of the N-by-N block of boundless cell values
whose top-left corner is (row - N // 2, col - N // 2) by floor division, where
(row, col) is the coordinate's pixel under the raster's transform; cells
outside the extent contribute the raster's fill value and no nodata masking is
applied. -/
theorem extract_windowed_value_is_block_mean
    (env : String → Option Raster) (envT : ℕ → Raster) (df : DataFrame)
    (lon_col lat_col var res z : String) (N : ℤ) (lons lats : List Val) (i : ℕ)
    (hlon : df.lookup lon_col = some lons)
    (hlat : df.lookup lat_col = some lats)
    (henv : ∀ j ∈ layerIdxs var, env (layerPath var res z j) = some (envT j))
    (hN : 1 < N) (hi : i ∈ layerIdxs var) :
    ∃ out, extract_from_zip env df lon_col lat_col var res (some N) z
        = Except.ok out ∧
      out.lookup (gname var res i) = some ((lons.zip lats).map (fun c =>
        (∑ dr ∈ Finset.range N.toNat, ∑ dc ∈ Finset.range N.toNat,
          (envT i).cell (((envT i).index c.1 c.2).1 - Int.fdiv N 2 + (dr : ℤ))
            (((envT i).index c.1 c.2).2 - Int.fdiv N 2 + (dc : ℤ)))
          / ((N.toNat : Val) * (N.toNat : Val)))) := by
  refine ⟨_, extract_ok hlon hlat henv, ?_⟩
  rw [pure_lookup_gen envT var res (some N) (lons.zip lats) (layerIdxs var) df
    (gnames_nodup var res) hi]
  rw [layerVals_gt_one hN]
  refine congrArg some ?_
  unfold windowedVals
  refine List.map_congr_left ?_
  intro c _
  simp only [gridMean_read]

/-- Witness: the C2 theorem applied to a concrete one-row table, window size
3 and layer 1 of a non-bio variable. -/
theorem extract_windowed_value_is_block_mean_witness :
    ∃ out, extract_from_zip env0 df0 "lon" "lat" "x" "r" (some 3) "u"
        = Except.ok out ∧
      out.lookup (gname "x" "r" 1) = some (([(0 : Val)].zip [(0 : Val)]).map
        (fun c =>
          (∑ dr ∈ Finset.range (3 : ℤ).toNat, ∑ dc ∈ Finset.range (3 : ℤ).toNat,
            R0.cell ((R0.index c.1 c.2).1 - Int.fdiv 3 2 + (dr : ℤ))
              ((R0.index c.1 c.2).2 - Int.fdiv 3 2 + (dc : ℤ)))
            / (((3 : ℤ).toNat : Val) * ((3 : ℤ).toNat : Val)))) :=
  extract_windowed_value_is_block_mean env0 (fun _ => R0) df0 "lon" "lat" "x"
    "r" "u" 3 [0] [0] 1 rfl rfl (fun _ _ => rfl) (by decide) (by decide)

/-- C3: with the window size argument absent or equal to 1, the value
extracted for a coordinate is the single-pixel boundless sample at the pixel
cell the raster's transform assigns to that coordinate, with no averaging. -/
theorem extract_unwindowed_value_is_pixel_sample
    (env : String → Option Raster) (envT : ℕ → Raster) (df : DataFrame)
    (lon_col lat_col var res z : String) (pw : Option ℤ) (lons lats : List Val)
    (i : ℕ)
    (hlon : df.lookup lon_col = some lons)
    (hlat : df.lookup lat_col = some lats)
    (henv : ∀ j ∈ layerIdxs var, env (layerPath var res z j) = some (envT j))
    (hpw : pw = none ∨ pw = some 1) (hi : i ∈ layerIdxs var) :
    ∃ out, extract_from_zip env df lon_col lat_col var res pw z = Except.ok out ∧
      out.lookup (gname var res i) = some ((lons.zip lats).map (fun c =>
        (envT i).cell ((envT i).index c.1 c.2).1 ((envT i).index c.1 c.2).2)) := by
  refine ⟨_, extract_ok hlon hlat henv, ?_⟩
  rw [pure_lookup_gen envT var res pw (lons.zip lats) (layerIdxs var) df
    (gnames_nodup var res) hi]
  rcases hpw with rfl | rfl
  · rfl
  · rw [layerVals_le_one (by norm_num)]
    rfl

/-- Witness: the C3 theorem applied to a concrete one-row table with the
window argument absent. -/
theorem extract_unwindowed_value_is_pixel_sample_witness :
    ∃ out, extract_from_zip env0 df0 "lon" "lat" "tavg" "5m" none "u"
        = Except.ok out ∧
      out.lookup (gname "tavg" "5m" 2) = some (([(0 : Val)].zip [(0 : Val)]).map
        (fun c => R0.cell (R0.index c.1 c.2).1 (R0.index c.1 c.2).2)) :=
  extract_unwindowed_value_is_pixel_sample env0 (fun _ => R0) df0 "lon" "lat"
    "tavg" "5m" "u" none [0] [0] 2 rfl rfl (fun _ _ => rfl) (Or.inl rfl)
    (by decide)

/-- C5: the virtual path opened for layer i is exactly the concatenation of
the zip-read prefix, the remote-read prefix, the archive URL
{base_url}/wc2.1_{res}_{var}.zip and the inner filename
wc2.1_{res}_{var}_{idx}.tif; as a plain function of its string inputs it is
deterministic. -/
theorem layerPath_follows_grammar (var res base : String) (i : ℕ) :
    layerPath var res (zip_url base res var) i
      = "/vsizip" ++ "/" ++ "vsicurl" ++ "/"
        ++ (base ++ "/wc2.1_" ++ res ++ "_" ++ var ++ ".zip") ++ "/"
        ++ ("wc2.1_" ++ res ++ "_" ++ var ++ "_" ++ istrOf var i ++ ".tif")
    ∧ zip_url base res var = base ++ "/wc2.1_" ++ res ++ "_" ++ var ++ ".zip" := by
  constructor
  · have hpre : "/vsizip" ++ "/" ++ "vsicurl" ++ "/" = "/vsizip/vsicurl/" := by
      decide
    rw [hpre]
    unfold layerPath vsiPath insideName zip_url
    simp [String.append_assoc]
  · rfl

/-- C6: if any layer's virtual path fails to open, the whole invocation
surfaces a catchable failure and no table is returned; the caller's table
value is untouched on the error path because the embedding is pure and the
routine only builds a copy. -/
theorem extract_errors_when_any_layer_fails
    (env : String → Option Raster) (df : DataFrame)
    (lon_col lat_col var res z : String) (pw : Option ℤ) (lons lats : List Val)
    (hlon : df.lookup lon_col = some lons)
    (hlat : df.lookup lat_col = some lats)
    (hfail : ∃ i ∈ layerIdxs var, env (layerPath var res z i) = none) :
    ∃ msg, extract_from_zip env df lon_col lat_col var res pw z
      = Except.error msg := by
  unfold extract_from_zip
  rw [hlon, hlat]
  exact extractLayers_err env var res pw z (lons.zip lats) (layerIdxs var)
    df.copy hfail

/-- Witness: the C6 theorem applied under an environment in which no path
opens. -/
theorem extract_errors_when_any_layer_fails_witness :
    ∃ msg, extract_from_zip envNone df0 "lon" "lat" "prec" "5m" none "u"
      = Except.error msg :=
  extract_errors_when_any_layer_fails envNone df0 "lon" "lat" "prec" "5m" "u"
    none [0] [0] rfl rfl ⟨1, by decide, rfl⟩

/-- C7 counterexample: the claim demands that a non-positive or even window
size be rejected with a clear error, but on the code the even window size 2
is accepted and extraction completes successfully. -/
theorem even_window_accepted_cex :
    ∃ out, extract_from_zip env0 df0 "lon" "lat" "x" "r" (some 2) "u"
      = Except.ok out :=
  ⟨_, @extract_ok env0 (fun _ => R0) df0 "lon" "lat" "x" "r" (some 2) "u"
    [0] [0] rfl rfl (fun _ _ => rfl)⟩

/-- C7 (amended): the extractor never validates the window size: a
non-positive size silently takes the exact-pixel branch, and an even size
greater than 1 silently produces the floor-offset (off-center) window and its
mean, with no error in either case. -/
theorem window_size_silently_branches (src : Raster) (coords : List (ℚ × ℚ))
    (k : ℤ) :
    (k ≤ 0 → layerVals src (some k) coords = src.sample coords) ∧
    (1 < k → k % 2 = 0 → layerVals src (some k) coords
      = coords.map (fun c =>
          gridMean (src.read ⟨(src.index c.1 c.2).2 - Int.fdiv k 2,
            (src.index c.1 c.2).1 - Int.fdiv k 2, k, k⟩))) := by
  constructor
  · intro hk
    exact layerVals_le_one (by omega) src coords
  · intro hk _
    rw [layerVals_gt_one hk]
    rfl

/-- Witness: the amended C7 theorem applied at the window sizes 0 and 2. -/
theorem window_size_silently_branches_witness :
    (layerVals R0 (some 0) [((0 : ℚ), (0 : ℚ))]
      = R0.sample [((0 : ℚ), (0 : ℚ))]) ∧
    (layerVals R0 (some 2) [((0 : ℚ), (0 : ℚ))]
      = [((0 : ℚ), (0 : ℚ))].map (fun c =>
          gridMean (R0.read ⟨(R0.index c.1 c.2).2 - Int.fdiv 2 2,
            (R0.index c.1 c.2).1 - Int.fdiv 2 2, 2, 2⟩))) :=
  ⟨(window_size_silently_branches R0 [((0 : ℚ), (0 : ℚ))] 0).1 (by decide),
   (window_size_silently_branches R0 [((0 : ℚ), (0 : ℚ))] 2).2 (by decide)
     (by decide)⟩

/-- C8: the windowed branch runs exactly when the window size is a truthy
integer greater than 1 (even sizes included), and every size at most 1,
including the 0 and the negative sizes that violate the stated precondition,
silently yields the same run as an absent window size. -/
theorem branch_on_window_size (env : String → Option Raster) (df : DataFrame)
    (lon_col lat_col var res z : String) (src : Raster)
    (coords : List (ℚ × ℚ)) (k : ℤ) :
    (layerVals src (some k) coords
      = if 1 < k then windowedVals src k coords else src.sample coords) ∧
    (k ≤ 1 → extract_from_zip env df lon_col lat_col var res (some k) z
      = extract_from_zip env df lon_col lat_col var res none z) := by
  constructor
  · by_cases hk : 1 < k
    · rw [if_pos hk, layerVals_gt_one hk]
    · rw [if_neg hk, layerVals_le_one (not_lt.mp hk)]
  · intro hk
    unfold extract_from_zip
    cases hlon : df.lookup lon_col with
    | none => rfl
    | some lons =>
      cases hlat : df.lookup lat_col with
      | none => rfl
      | some lats =>
        exact extractLayers_pw_congr env var res z (lons.zip lats)
          (fun s => by rw [layerVals_le_one hk, layerVals_none]) (layerIdxs var)
          (DataFrame.copy df)

/-- Witness: the C8 theorem applied at the window size 0 on concrete data. -/
theorem branch_on_window_size_witness :
    (layerVals R0 (some 0) [((0 : ℚ), (0 : ℚ))]
      = if (1 : ℤ) < 0 then windowedVals R0 0 [((0 : ℚ), (0 : ℚ))]
        else R0.sample [((0 : ℚ), (0 : ℚ))]) ∧
    extract_from_zip env0 df0 "lon" "lat" "x" "r" (some 0) "u"
      = extract_from_zip env0 df0 "lon" "lat" "x" "r" none "u" :=
  ⟨(branch_on_window_size env0 df0 "lon" "lat" "x" "r" "u" R0
      [((0 : ℚ), (0 : ℚ))] 0).1,
   (branch_on_window_size env0 df0 "lon" "lat" "x" "r" "u" R0
      [((0 : ℚ), (0 : ℚ))] 0).2 (by decide)⟩

/-- C9: the layer-count and padding policy is decided on the lowercased
variable, while column names and the inner archive filenames embed the
caller's variable string verbatim: the caller string "BIO" runs 19 layers
with unpadded indices yet yields the column BIO_10m_7 and the inner member
wc2.1_10m_BIO_7.tif, never the lowercase forms. -/
theorem var_used_verbatim_policy_lowercased (var res : String) (i : ℕ) :
    maxLayer var = (if lowerStr var = "bio" then 19 else 12) ∧
    gname var res i = var ++ "_" ++ res ++ "_" ++ istrOf var i ∧
    insideName var res (istrOf var i)
      = "wc2.1_" ++ res ++ "_" ++ var ++ "_" ++ istrOf var i ++ ".tif" ∧
    lowerStr "BIO" = "bio" ∧
    maxLayer "BIO" = 19 ∧
    istrOf "BIO" 7 = "7" ∧
    gname "BIO" "10m" 7 = "BIO_10m_7" ∧
    insideName "BIO" "10m" (istrOf "BIO" 7) = "wc2.1_10m_BIO_7.tif" ∧
    istrOf "tmin" 7 = "07" :=
  ⟨rfl, rfl, rfl, by decide, by decide, by decide, by decide, by decide,
   by decide⟩
